import Mathlib

/-!
# Content History & Versioning Engine — verification development

A shallow embedding of the Content History & Versioning Engine of this
repository: the subsystem that captures a snapshot of a content document on
every create / update / publish / unpublish, stores the snapshots as an
append-only history, detects schema drift between a stored snapshot and the
live content-type definition, paginates version listings, and schedules a
daily retention purge.

The implementation file of the history service (`createHistoryService`) is
not present under `src/` — only its unit tests
(`src/packages/core/content-manager/server/src/history/services/__tests__/history.test.ts`)
and its end-to-end scenario (`src/e2e/tests/content-manager/history.spec.ts`)
are.  The definitions below are therefore modelled from the specification's
words (each such definition says so in its doc comment), with the in-repo
tests pinning concrete behavior (the `api::` namespace check, the
`'0 0 * * *'` cron rule, the shape of `meta.unknownAttributes`, the
`createdBy` / `createdAt` stamping, the e2e version-listing scenario).
-/

namespace History

/-- An attribute descriptor of a content-type schema.  The tests only ever
inspect its `type` field (e.g. `{ type: 'string' }`), so the descriptor is
modelled as that field. -/
structure Attribute where
  type : String
deriving DecidableEq, Repr

/-- A schema: a finite map from attribute names to their descriptors,
modelled as an association list (the order is the declaration order of the
content-type definition). -/
abbrev AttributeMap := List (String × Attribute)

/-- The attribute names of a schema. -/
def attributeNames (m : AttributeMap) : List String := m.map Prod.fst

/-- Whether a schema declares an attribute of the given name. -/
def hasAttribute (m : AttributeMap) (name : String) : Bool :=
  m.any (fun p => p.fst = name)

/-- Modelled from the spec: the Schema Drift Calculator (§4.4), whose
implementation is absent from `src/`.  Given a version's frozen `schema`
and the current live schema of the same content type it returns
`(added, removed)`: `added` is the attributes present in the live schema
but absent from the frozen one, `removed` the attributes present in the
frozen schema but absent from the live one.  Attributes present in both are
not reported.  It is a pure function of its two arguments. -/
def getSchemaAttributesDiff (frozenSchema liveSchema : AttributeMap) :
    AttributeMap × AttributeMap :=
  let added := liveSchema.filter (fun p => !(hasAttribute frozenSchema p.fst))
  let removed := frozenSchema.filter (fun p => !(hasAttribute liveSchema p.fst))
  (added, removed)

/-- The draft/publish status a HistoryVersion can carry when the content type
has a draft/publish concept. -/
inductive DPStatus where
  | draft
  | published
deriving DecidableEq, Repr

/-- The caller-supplied fields of a HistoryVersion (everything except the
fields stamped by the service at creation time).  `status` is `none` when
the content type has no draft/publish concept (`status: null` in the tests);
`locale` is `none` for locale-less content types. -/
structure HistoryVersionData where
  contentType : String
  relatedDocumentId : String
  locale : Option String
  status : Option DPStatus
  data : List (String × String)
  schema : AttributeMap
deriving DecidableEq, Repr

/-- A persisted HistoryVersion: the caller-supplied fields plus the
service-stamped `createdBy` (absent when the action was not performed in a
user request context) and `createdAt` (capture time, modelled as a `Nat`
timestamp). -/
structure HistoryVersion extends HistoryVersionData where
  createdBy : Option String
  createdAt : Nat
deriving DecidableEq, Repr

/-- The ambient request context, as far as the history service reads it:
the id of the acting user (`state.user.id` in the tests). -/
structure RequestState where
  userId : String
deriving DecidableEq, Repr

/-- Modelled from the spec: the `createVersion` operation of the history
service, whose implementation is absent from `src/`.  It takes the
caller-supplied HistoryVersion fields and produces the row handed to the
repository, stamping `createdBy` from the ambient request context when one
exists (absent otherwise) and `createdAt` with the current time. -/
def createVersion (requestCtx : Option RequestState) (now : Nat)
    (d : HistoryVersionData) : HistoryVersion :=
  { toHistoryVersionData := d
    createdBy := requestCtx.map RequestState.userId
    createdAt := now }

/-- The append-only HistoryVersion store, newest row last. -/
abbrev Store := List HistoryVersion

/-- Modelled from the spec: the repository's `create` operation — inserts a
new HistoryVersion whole as a new row and never updates an existing row. -/
def repositoryCreate (store : Store) (v : HistoryVersion) : Store :=
  store ++ [v]

/-- Outcome of a transaction: it either durably commits or rolls back. -/
inductive TxOutcome where
  | committed
  | rolledBack
deriving DecidableEq, Repr

/-- Modelled from the spec: an ambient transaction exposing a
register-commit-hook primitive.  The history writer only ever registers
persistence of a HistoryVersion, so the pending hooks are modelled as the
list of versions whose persistence was registered, in registration order. -/
structure Transaction where
  outcome : TxOutcome
  pendingVersions : List HistoryVersion
deriving DecidableEq, Repr

/-- Modelled from the spec: the Transactional History Writer (§4.2), whose
implementation is absent from `src/`.  When an ambient transaction exists,
persistence of the version is registered as a commit-hook on it and the
store is untouched; when there is none, the version is persisted
immediately through the repository. -/
def writerRecord (ambient : Option Transaction) (store : Store)
    (v : HistoryVersion) : Option Transaction × Store :=
  match ambient with
  | none => (none, repositoryCreate store v)
  | some tx =>
      (some { tx with pendingVersions := tx.pendingVersions ++ [v] }, store)

/-- Modelled from the spec: settling a transaction.  On commit the storage
layer fires every registered commit-hook, persisting each pending version
through the repository; on rollback the hooks never fire and the store is
unchanged. -/
def settleTransaction (tx : Transaction) (store : Store) : Store :=
  match tx.outcome with
  | .committed => tx.pendingVersions.foldl repositoryCreate store
  | .rolledBack => store

/-- Recording one version inside an (optional) ambient transaction with the
given outcome, followed by the transaction settling: the store the process
ends up with. -/
def recordAndSettle (ambient : Option TxOutcome) (store : Store)
    (v : HistoryVersion) : Store :=
  match ambient with
  | none => (writerRecord none store v).2
  | some outcome =>
      let step := writerRecord (some ⟨outcome, []⟩) store v
      match step.1 with
      | some tx => settleTransaction tx step.2
      | none => step.2

/-- The HistoryVersion fields used by the `createVersion` unit test with a
null status and no author. -/
def sampleArticleData : HistoryVersionData :=
  { contentType := "api::article.article"
    relatedDocumentId := "randomid"
    locale := some "en"
    status := none
    data := [("title", "My article")]
    schema := [("title", ⟨"string"⟩)] }

/-- The transient context of one document mutation call as the Interceptor
sees it before calling downstream: the action name, the content-type
identifier, and the `locale` from the call arguments. -/
structure DocumentActionContext where
  action : String
  contentTypeUid : String
  localeArg : Option String
deriving DecidableEq, Repr

/-- What the downstream mutation pipeline reports back on success: the
resulting document id, the resulting document data, and the current publish
state of the document (the collaborator-reported input from which the
Interceptor derives `status` for create/update actions). -/
structure MutationResult where
  documentId : String
  resultData : List (String × String)
  alreadyPublished : Bool
deriving DecidableEq, Repr

/-- Modelled from the spec: a content type belongs to the user-defined
namespace when its identifier starts with `api::` (the unit test contrasts
`api::article.article`, which is recorded, with `plugin::upload.file`,
which is ignored).  The prefix test is spelled out on the character list of
the identifier. -/
def isUserContentType (uid : String) : Bool :=
  List.isPrefixOf "api::".data uid.data

/-- Modelled from the spec: the actions for which a history snapshot is
recorded. -/
def isQualifyingAction (action : String) : Bool :=
  action = "create" || action = "update" || action = "publish" ||
    action = "unpublish"

/-- Modelled from the spec: the `status` a recorded version carries —
`publish` → `published`, `unpublish` → `draft`, and `create`/`update` →
`draft` unless the collaborator reports the document as already
published. -/
def deriveStatus (action : String) (alreadyPublished : Bool) : Option DPStatus :=
  if action = "publish" then some DPStatus.published
  else if action = "unpublish" then some DPStatus.draft
  else if alreadyPublished then some DPStatus.published
  else some DPStatus.draft

/-- Modelled from the spec: the HistoryVersion fields the Interceptor builds
after a qualifying mutation resolves: the post-action document id, the
locale from the arguments, the resulting data, the live schema captured now
(becoming the frozen `schema`), and the derived status. -/
def buildVersionData (liveSchema : String → AttributeMap)
    (ctx : DocumentActionContext) (res : MutationResult) : HistoryVersionData :=
  { contentType := ctx.contentTypeUid
    relatedDocumentId := res.documentId
    locale := ctx.localeArg
    status := deriveStatus ctx.action res.alreadyPublished
    data := res.resultData
    schema := liveSchema ctx.contentTypeUid }

/-- Modelled from the spec: the Document Action Interceptor middleware,
whose implementation is absent from `src/`.  It wraps the mutation call as
`(context, next) → result`: it always invokes `next` and hands back exactly
what `next` produced (`Except` models a thrown error, which propagates
unchanged).  When the context is eligible — user-namespace content type and
qualifying action — and `next` resolved successfully, exactly one version
record is built as a side effect; the built records are returned alongside
the result so the side effect is observable. -/
def historyMiddleware (liveSchema : String → AttributeMap)
    (next : DocumentActionContext → Except String MutationResult)
    (ctx : DocumentActionContext) :
    Except String MutationResult × List HistoryVersionData :=
  let result := next ctx
  match result with
  | Except.error e => (Except.error e, [])
  | Except.ok res =>
      if isUserContentType ctx.contentTypeUid && isQualifyingAction ctx.action then
        (Except.ok res, [buildVersionData liveSchema ctx res])
      else
        (Except.ok res, [])

/-- A wall-clock time of day, used to state when a cron rule fires. -/
structure TimeOfDay where
  hour : Nat
  minute : Nat
deriving DecidableEq, Repr

/-- The numeric value of a decimal digit character, if it is one. -/
def digitVal (c : Char) : Option Nat :=
  if c.isDigit then some (c.toNat - 48) else none

/-- Accumulating decimal value of a digit string. -/
def parseNatCharsAux : List Char → Nat → Option Nat
  | [], acc => some acc
  | c :: cs, acc =>
      match digitVal c with
      | some d => parseNatCharsAux cs (acc * 10 + d)
      | none => none

/-- The decimal value of a non-empty digit string, if every character is a
digit. -/
def parseNatChars : List Char → Option Nat
  | [] => none
  | c :: cs => parseNatCharsAux (c :: cs) 0

/-- Split a character list on spaces (cron fields are space-separated). -/
def splitOnSpace : List Char → List (List Char)
  | [] => [[]]
  | c :: cs =>
      let rest := splitOnSpace cs
      if c = ' ' then [] :: rest
      else
        match rest with
        | [] => [[c]]
        | r :: rs => (c :: r) :: rs

/-- A cron field matches a numeric value when it is the wildcard or its
decimal value is that number. -/
def cronFieldMatches (field : List Char) (value : Nat) : Bool :=
  field = ['*'] || parseNatChars field = some value

/-- Modelled from the spec: the firing semantics of a five-field cron rule
(`minute hour day-of-month month day-of-week`) as far as the time of day is
concerned — the rule fires at a time of day exactly when the minute and
hour fields match it.  The day fields of the daily rule are wildcards, so
the rule fires every day at the matching times of day. -/
def cronFiresAt (rule : String) (t : TimeOfDay) : Bool :=
  match splitOnSpace rule.data with
  | [minuteField, hourField, _, _, _] =>
      cronFieldMatches minuteField t.minute && cronFieldMatches hourField t.hour
  | _ => false

/-- The mutable installation state of the history service: whether bootstrap
already ran, how many middleware wraps are registered on the document
service's mutation pipeline, and the cron rules of the scheduled retention
purge jobs. -/
structure ServiceState where
  isInitialized : Bool
  middlewareCount : Nat
  scheduledJobs : List String
deriving DecidableEq, Repr

/-- The state of a freshly started process: nothing installed yet. -/
def initialServiceState : ServiceState :=
  { isInitialized := false, middlewareCount := 0, scheduledJobs := [] }

/-- Modelled from the spec: the history service's `bootstrap` routine, whose
implementation is absent from `src/`.  Guarded by a one-time installation
flag, it registers the Interceptor middleware on the mutation pipeline and
schedules the daily retention purge job with cron rule `0 0 * * *`; a
second call finds the flag set and does nothing. -/
def bootstrap (s : ServiceState) : ServiceState :=
  if s.isInitialized then s
  else
    { isInitialized := true
      middlewareCount := s.middlewareCount + 1
      scheduledJobs := s.scheduledJobs ++ ["0 0 * * *"] }

/-- Newest-first order on versions: the later element was created no later
than the earlier one. -/
def newerFirst (a b : HistoryVersion) : Prop :=
  b.createdAt ≤ a.createdAt

instance : DecidableRel newerFirst := fun a b =>
  inferInstanceAs (Decidable (b.createdAt ≤ a.createdAt))

/-- Insert a version into a newest-first list, keeping it newest-first
(ties keep the inserted element first, matching insertion order). -/
def insertByCreatedAtDesc (v : HistoryVersion) :
    List HistoryVersion → List HistoryVersion
  | [] => [v]
  | w :: ws =>
      if w.createdAt ≤ v.createdAt then v :: w :: ws
      else w :: insertByCreatedAtDesc v ws

/-- Sort versions newest-first by `createdAt` (insertion sort). -/
def sortByCreatedAtDesc : List HistoryVersion → List HistoryVersion
  | [] => []
  | v :: vs => insertByCreatedAtDesc v (sortByCreatedAtDesc vs)

/-- The query parameters of `findVersionsPage`: the exact triple plus the
requested page (1-based) and page size. -/
structure FindVersionsParams where
  contentType : String
  documentId : String
  locale : Option String
  page : Nat
  pageSize : Nat
deriving DecidableEq, Repr

/-- Pagination metadata returned alongside a page of versions. -/
structure Pagination where
  page : Nat
  pageSize : Nat
  total : Nat
deriving DecidableEq, Repr

/-- A HistoryVersion as returned by `findVersionsPage`: the stored row plus
the read-time `meta.unknownAttributes` decoration. -/
structure HistoryVersionWithMeta where
  version : HistoryVersion
  unknownAdded : AttributeMap
  unknownRemoved : AttributeMap
deriving DecidableEq, Repr

/-- Whether a stored version matches the exact
`(contentType, relatedDocumentId, locale)` triple of a query. -/
def matchesQuery (p : FindVersionsParams) (v : HistoryVersion) : Bool :=
  v.contentType = p.contentType && v.relatedDocumentId = p.documentId &&
    v.locale = p.locale

/-- Decorate one stored version with `meta.unknownAttributes`, computed by
the Drift Calculator against the current live schema of its content type. -/
def decorateWithUnknownAttributes (liveSchema : String → AttributeMap)
    (v : HistoryVersion) : HistoryVersionWithMeta :=
  { version := v
    unknownAdded := (getSchemaAttributesDiff v.schema (liveSchema v.contentType)).1
    unknownRemoved := (getSchemaAttributesDiff v.schema (liveSchema v.contentType)).2 }

/-- Modelled from the spec: the `findVersionsPage` operation of the history
service, whose implementation is absent from `src/`.  It filters the store
to the exact `(contentType, relatedDocumentId, locale)` triple, orders the
matches by `createdAt` descending, takes the requested page, decorates each
returned item with `meta.unknownAttributes` computed at read time against
the current live schema, and returns the page plus pagination metadata.
The store itself is untouched — the decoration is never stored. -/
def findVersionsPage (liveSchema : String → AttributeMap) (store : Store)
    (p : FindVersionsParams) :
    List HistoryVersionWithMeta × Pagination :=
  let filtered := store.filter (matchesQuery p)
  let sorted := sortByCreatedAtDesc filtered
  let pageItems := (sorted.drop ((p.page - 1) * p.pageSize)).take p.pageSize
  (pageItems.map (decorateWithUnknownAttributes liveSchema),
   { page := p.page, pageSize := p.pageSize, total := filtered.length })

/-- The live schema the `findVersionsPage` unit test runs against: the
article content type now has `newField` and `renamed` and no longer has
`title`. -/
def testLiveSchema : String → AttributeMap :=
  fun _ => [("newField", ⟨"string"⟩), ("renamed", ⟨"string"⟩)]

/-- The stored version row the `findVersionsPage` unit test returns from the
database: frozen schema `{title}`. -/
def testStoredVersion : HistoryVersion :=
  { contentType := "api::article.article"
    relatedDocumentId := "randomid"
    locale := some "en"
    status := some DPStatus.draft
    data := [("title", "My article")]
    schema := [("title", ⟨"string"⟩)]
    createdBy := some "user-id"
    createdAt := 0 }

/-- The query of the `findVersionsPage` unit test. -/
def testFindParams : FindVersionsParams :=
  { contentType := "api::article.article"
    documentId := "randomid"
    locale := some "en"
    page := 1
    pageSize := 10 }

/-- The decorated item the unit test expects back. -/
def testDecorated : HistoryVersionWithMeta :=
  decorateWithUnknownAttributes testLiveSchema testStoredVersion

/-- The live schema of the e2e scenario's article content type. -/
def articleLiveSchema : String → AttributeMap :=
  fun _ => [("title", ⟨"string"⟩)]

/-- The article content-type identifier of the e2e scenario. -/
def articleUid : String := "api::article.article"

/-- One pipeline mutation of the e2e scenario run through the full model:
the Interceptor middleware decides what to record, each built record is
stamped by `createVersion` at the given time and handed to the
Transactional Writer inside a committing transaction. -/
def scenarioStep (store : Store) (t : Nat) (ctx : DocumentActionContext)
    (res : MutationResult) : Store :=
  (historyMiddleware articleLiveSchema (fun _ => Except.ok res) ctx).2.foldl
    (fun st d =>
      recordAndSettle (some TxOutcome.committed) st
        (createVersion (some ⟨"user-id"⟩) t d)) store

/-- A mutation context of the e2e scenario (locale `en`). -/
def scenarioCtx (action : String) : DocumentActionContext :=
  { action := action, contentTypeUid := articleUid, localeArg := some "en" }

/-- A mutation result of the e2e scenario. -/
def scenarioRes (published : Bool) : MutationResult :=
  { documentId := "doc-1"
    resultData := [("title", "Being from Kansas City")]
    alreadyPublished := published }

/-- Store after the e2e scenario's create (action `create`, locale `en`). -/
def storeAfterCreate : Store :=
  scenarioStep [] 0 (scenarioCtx "create") (scenarioRes false)

/-- Store after the e2e scenario's update. -/
def storeAfterUpdate : Store :=
  scenarioStep storeAfterCreate 1 (scenarioCtx "update") (scenarioRes false)

/-- Modelled from the spec and the e2e scenario: publishing triggers the
`publish` mutation and then implicitly re-creates the draft (a further
`update` mutation of the draft variant), so the published version is
committed first and the new draft after it — the e2e test asserts the
newest version card is `Draft` and the second one `Published`
(`src/e2e/tests/content-manager/history.spec.ts`, "Publish also creates a
new draft so we expect the count to increase by 2"). -/
def storeAfterPublish : Store :=
  scenarioStep
    (scenarioStep storeAfterUpdate 2 (scenarioCtx "publish") (scenarioRes true))
    3 (scenarioCtx "update") (scenarioRes false)

/-- Store after the e2e scenario's unpublish. -/
def storeAfterUnpublish : Store :=
  scenarioStep storeAfterPublish 4 (scenarioCtx "unpublish") (scenarioRes false)

/-- The newest-first statuses `findVersionsPage` lists for the scenario's
document after the publish step. -/
def publishListingStatuses : List (Option DPStatus) :=
  ((findVersionsPage articleLiveSchema storeAfterPublish
      { contentType := articleUid, documentId := "doc-1", locale := some "en"
        page := 1, pageSize := 10 }).1).map (fun r => r.version.status)

/-- Membership characterization of `hasAttribute`. -/
theorem hasAttribute_eq_true_iff (m : AttributeMap) (name : String) :
    hasAttribute m name = true ↔ name ∈ attributeNames m := by
  simp [hasAttribute, attributeNames, List.any_eq_true, List.mem_map]

/-- Membership in the names of a filtered schema. -/
theorem mem_attributeNames_filter (m : AttributeMap) (q : String × Attribute → Bool)
    (name : String) :
    name ∈ attributeNames (m.filter q) ↔
      ∃ p, p ∈ m ∧ q p = true ∧ p.fst = name := by
  constructor
  · intro h
    obtain ⟨p, hp, rfl⟩ := List.mem_map.mp h
    have hpf := List.mem_filter.mp hp
    exact ⟨p, hpf.1, hpf.2, rfl⟩
  · rintro ⟨p, hp, hq, rfl⟩
    exact List.mem_map.mpr ⟨p, List.mem_filter.mpr ⟨hp, hq⟩, rfl⟩

/-- C4 — The Schema Drift Calculator, given a version's frozen schema and
the current live schema for the same content type, returns `added` = exactly
the attributes present in the live schema but absent from the frozen schema,
and `removed` = exactly the attributes present in the frozen schema but absent
from the live schema; attributes present in both are never reported (in
particular, never in either component).  The calculator is a plain function
of its two inputs, hence pure and deterministic. -/
theorem getSchemaAttributesDiff_spec (frozen live : AttributeMap) (name : String) :
    (name ∈ attributeNames (getSchemaAttributesDiff frozen live).1 ↔
      name ∈ attributeNames live ∧ name ∉ attributeNames frozen) ∧
    (name ∈ attributeNames (getSchemaAttributesDiff frozen live).2 ↔
      name ∈ attributeNames frozen ∧ name ∉ attributeNames live) ∧
    ¬(name ∈ attributeNames frozen ∧ name ∈ attributeNames live ∧
      (name ∈ attributeNames (getSchemaAttributesDiff frozen live).1 ∨
       name ∈ attributeNames (getSchemaAttributesDiff frozen live).2)) := by
  have hadd : name ∈ attributeNames (getSchemaAttributesDiff frozen live).1 ↔
      name ∈ attributeNames live ∧ name ∉ attributeNames frozen := by
    unfold getSchemaAttributesDiff
    rw [mem_attributeNames_filter]
    constructor
    · rintro ⟨p, hp, hq, rfl⟩
      refine ⟨List.mem_map.mpr ⟨p, hp, rfl⟩, ?_⟩
      intro hmem
      rw [Bool.not_eq_true', ← Bool.not_eq_true] at hq
      exact hq ((hasAttribute_eq_true_iff frozen p.fst).mpr hmem)
    · rintro ⟨hlive, hfro⟩
      obtain ⟨p, hp, rfl⟩ := List.mem_map.mp hlive
      refine ⟨p, hp, ?_, rfl⟩
      rw [Bool.not_eq_true', ← Bool.not_eq_true]
      exact fun h => hfro ((hasAttribute_eq_true_iff frozen p.fst).mp h)
  have hrem : name ∈ attributeNames (getSchemaAttributesDiff frozen live).2 ↔
      name ∈ attributeNames frozen ∧ name ∉ attributeNames live := by
    unfold getSchemaAttributesDiff
    rw [mem_attributeNames_filter]
    constructor
    · rintro ⟨p, hp, hq, rfl⟩
      refine ⟨List.mem_map.mpr ⟨p, hp, rfl⟩, ?_⟩
      intro hmem
      rw [Bool.not_eq_true', ← Bool.not_eq_true] at hq
      exact hq ((hasAttribute_eq_true_iff live p.fst).mpr hmem)
    · rintro ⟨hfro, hlive⟩
      obtain ⟨p, hp, rfl⟩ := List.mem_map.mp hfro
      refine ⟨p, hp, ?_, rfl⟩
      rw [Bool.not_eq_true', ← Bool.not_eq_true]
      exact fun h => hlive ((hasAttribute_eq_true_iff live p.fst).mp h)
  refine ⟨hadd, hrem, ?_⟩
  rintro ⟨hf, hl, hboth | hboth⟩
  · exact (hadd.mp hboth).2 hf
  · exact (hrem.mp hboth).2 hl

/-- C1 — A HistoryVersion is durably persisted if and only if the
mutation's enclosing transaction commits: the Writer registers persistence
as a commit-hook of the ambient transaction, so if the transaction commits
the version is appended to the store, if it rolls back the store is exactly
what it was before (no HistoryVersion for the mutation ever exists), and if
there is no ambient transaction the version is persisted immediately. -/
theorem writerRecord_persists_iff_commit (store : Store) (v : HistoryVersion) :
    recordAndSettle (some TxOutcome.committed) store v = store ++ [v] ∧
    recordAndSettle (some TxOutcome.rolledBack) store v = store ∧
    recordAndSettle none store v = store ++ [v] := by
  refine ⟨rfl, rfl, rfl⟩

/-- C8 — When a HistoryVersion is created, its `createdBy` field equals
the current actor id read from the ambient request context when such a
context exists, is absent when there is none, and its `createdAt` field
equals the capture time. -/
theorem createVersion_stamps_author_and_time (now : Nat) (d : HistoryVersionData) :
    (∀ rs : RequestState,
      (createVersion (some rs) now d).createdBy = some rs.userId) ∧
    (createVersion none now d).createdBy = none ∧
    (∀ requestCtx : Option RequestState,
      (createVersion requestCtx now d).createdAt = now) := by
  exact ⟨fun _ => rfl, rfl, fun _ => rfl⟩

/-- C10 — `createVersion` accepts a null status and the resulting row is
persisted whole, in a single repository call, with `status` null, no author,
and exactly the supplied fields plus the service-stamped `createdBy`
(absent when no request context exists) and `createdAt`. -/
theorem createVersion_null_status_ok (store : Store) (now : Nat)
    (d : HistoryVersionData) (h : d.status = none) :
    repositoryCreate store (createVersion none now d) =
      store ++ [createVersion none now d] ∧
    (createVersion none now d).toHistoryVersionData = d ∧
    (createVersion none now d).status = none ∧
    (createVersion none now d).createdBy = none ∧
    (createVersion none now d).createdAt = now := by
  exact ⟨rfl, rfl, h, rfl, rfl⟩

/-- Witness for C10: the null-status theorem at the unit test's concrete
input. -/
theorem createVersion_null_status_ok_witness :
    repositoryCreate [] (createVersion none 0 sampleArticleData) =
      [] ++ [createVersion none 0 sampleArticleData] ∧
    (createVersion none 0 sampleArticleData).toHistoryVersionData =
      sampleArticleData ∧
    (createVersion none 0 sampleArticleData).status = none ∧
    (createVersion none 0 sampleArticleData).createdBy = none ∧
    (createVersion none 0 sampleArticleData).createdAt = 0 :=
  createVersion_null_status_ok [] 0 sampleArticleData rfl

/-- C2 — For every document mutation call intercepted by the history
middleware, eligible for recording or not, the middleware returns exactly
the value `next` returns on the context (including a propagated error);
recording never changes the caller-visible result. -/
theorem historyMiddleware_preserves_result (liveSchema : String → AttributeMap)
    (next : DocumentActionContext → Except String MutationResult)
    (ctx : DocumentActionContext) :
    (historyMiddleware liveSchema next ctx).1 = next ctx := by
  unfold historyMiddleware
  cases hres : next ctx with
  | error e => rfl
  | ok res =>
      by_cases h : isUserContentType ctx.contentTypeUid &&
          isQualifyingAction ctx.action
      · simp [h]
      · simp [h]

/-- C3 — Exactly one HistoryVersion record is built for a successful
mutation whose action is one of `create`, `update`, `publish`, `unpublish`
on a content type in the user-defined (`api::`) namespace, and zero records
for any other action (e.g. `findOne`, `delete`), any content type outside
that namespace (e.g. `plugin::`-owned), or a failed mutation. -/
theorem historyMiddleware_record_count (liveSchema : String → AttributeMap)
    (next : DocumentActionContext → Except String MutationResult)
    (ctx : DocumentActionContext) :
    (historyMiddleware liveSchema next ctx).2.length =
      if (next ctx).isOk && isUserContentType ctx.contentTypeUid &&
          isQualifyingAction ctx.action then 1 else 0 := by
  unfold historyMiddleware
  cases hres : next ctx with
  | error e => simp [Except.isOk, Except.toBool]
  | ok res =>
      by_cases h : isUserContentType ctx.contentTypeUid &&
          isQualifyingAction ctx.action
      · simp [h, Except.isOk, Except.toBool]
      · simp only [Bool.and_eq_true] at h ⊢
        simp [Except.isOk, Except.toBool, h]

/-- Iterating bootstrap one or more times from a fresh state always lands on
the state a single call produces. -/
theorem bootstrap_iterate_succ (n : Nat) :
    bootstrap^[n + 1] initialServiceState = bootstrap initialServiceState := by
  induction n with
  | zero => rfl
  | succ k ih =>
      rw [Function.iterate_succ_apply', ih]
      rfl

/-- C6 — Invoking the history service's bootstrap routine any number of
times, two or more, leaves exactly one middleware wrap registered on the
mutation pipeline — never two. -/
theorem bootstrap_installs_exactly_one_wrap (n : Nat) (h : 2 ≤ n) :
    (bootstrap^[n] initialServiceState).middlewareCount = 1 := by
  obtain ⟨k, rfl⟩ : ∃ k, n = k + 1 := ⟨n - 1, by omega⟩
  rw [bootstrap_iterate_succ]
  rfl

/-- Witness for C6: two bootstrap calls leave exactly one wrap. -/
theorem bootstrap_installs_exactly_one_wrap_witness :
    (bootstrap^[2] initialServiceState).middlewareCount = 1 :=
  bootstrap_installs_exactly_one_wrap 2 (by decide)

/-- The cron field `0` matches exactly the value zero. -/
theorem cronFieldMatches_digit_zero (v : Nat) :
    cronFieldMatches ['0'] v = true ↔ v = 0 := by
  have hparse : parseNatChars ['0'] = some 0 := rfl
  have hwild : (['0'] = ['*'] : Prop) ↔ False := by
    simp
  simp [cronFieldMatches, hparse, hwild]
  exact comm

/-- C7 — Bootstrap, called once or repeatedly, schedules exactly one
retention purge job per process lifetime (the one-time installation guard
shared with the Interceptor prevents a second), with the fixed cron rule
`0 0 * * *`, and that rule fires at exactly one time of day — midnight —
i.e. once at the start of each day. -/
theorem bootstrap_schedules_single_daily_purge (n : Nat) (h : 1 ≤ n) :
    (bootstrap^[n] initialServiceState).scheduledJobs = ["0 0 * * *"] ∧
    (∀ t : TimeOfDay,
      cronFiresAt "0 0 * * *" t = true ↔ t.hour = 0 ∧ t.minute = 0) := by
  constructor
  · obtain ⟨k, rfl⟩ : ∃ k, n = k + 1 := ⟨n - 1, by omega⟩
    rw [bootstrap_iterate_succ]
    rfl
  · intro t
    have hsplit : splitOnSpace ("0 0 * * *".data) =
        [['0'], ['0'], ['*'], ['*'], ['*']] := rfl
    rw [cronFiresAt, hsplit]
    rw [Bool.and_eq_true, cronFieldMatches_digit_zero, cronFieldMatches_digit_zero]
    exact and_comm

/-- Witness for C7: two bootstrap calls leave exactly the one daily job, and
the rule fires exactly at midnight. -/
theorem bootstrap_schedules_single_daily_purge_witness :
    (bootstrap^[2] initialServiceState).scheduledJobs = ["0 0 * * *"] ∧
    (∀ t : TimeOfDay,
      cronFiresAt "0 0 * * *" t = true ↔ t.hour = 0 ∧ t.minute = 0) :=
  bootstrap_schedules_single_daily_purge 2 (by decide)

/-- Inserting into a newest-first list only adds the inserted element. -/
theorem mem_insertByCreatedAtDesc {x v : HistoryVersion}
    {l : List HistoryVersion} :
    x ∈ insertByCreatedAtDesc v l ↔ x = v ∨ x ∈ l := by
  induction l with
  | nil => simp [insertByCreatedAtDesc]
  | cons w ws ih =>
      unfold insertByCreatedAtDesc
      by_cases h : w.createdAt ≤ v.createdAt
      · simp [h]
      · simp [h, ih]
        tauto

/-- Sorting permutes nothing in and nothing out. -/
theorem mem_sortByCreatedAtDesc {x : HistoryVersion} {l : List HistoryVersion} :
    x ∈ sortByCreatedAtDesc l ↔ x ∈ l := by
  induction l with
  | nil => simp [sortByCreatedAtDesc]
  | cons v vs ih =>
      unfold sortByCreatedAtDesc
      rw [mem_insertByCreatedAtDesc]
      simp [ih]

/-- Insertion keeps a newest-first list newest-first. -/
theorem sorted_insertByCreatedAtDesc {v : HistoryVersion}
    {l : List HistoryVersion} (h : List.Pairwise newerFirst l) :
    List.Pairwise newerFirst (insertByCreatedAtDesc v l) := by
  induction l with
  | nil => simp [insertByCreatedAtDesc]
  | cons w ws ih =>
      unfold insertByCreatedAtDesc
      rw [List.pairwise_cons] at h
      by_cases hc : w.createdAt ≤ v.createdAt
      · rw [if_pos hc, List.pairwise_cons]
        refine ⟨?_, List.pairwise_cons.mpr h⟩
        intro x hx
        rcases List.mem_cons.mp hx with rfl | hx
        · exact hc
        · exact le_trans (h.1 x hx) hc
      · rw [if_neg hc, List.pairwise_cons]
        refine ⟨?_, ih h.2⟩
        intro x hx
        rcases mem_insertByCreatedAtDesc.mp hx with rfl | hx
        · exact le_of_lt (lt_of_not_le hc)
        · exact h.1 x hx

/-- The sort output is newest-first. -/
theorem sorted_sortByCreatedAtDesc (l : List HistoryVersion) :
    List.Pairwise newerFirst (sortByCreatedAtDesc l) := by
  induction l with
  | nil => simp [sortByCreatedAtDesc]
  | cons v vs ih => exact sorted_insertByCreatedAtDesc ih

/-- C5 — `findVersionsPage` returns only versions matching the exact
`(contentType, relatedDocumentId, locale)` triple requested, each an
undecorated row of the store carrying `meta.unknownAttributes` computed at
read time by the Drift Calculator against the current live schema; the page
is ordered by `createdAt` descending (newest first) and comes with
pagination metadata (page number, page size, total matching count). -/
theorem findVersionsPage_spec (liveSchema : String → AttributeMap)
    (store : Store) (p : FindVersionsParams) :
    (∀ r ∈ (findVersionsPage liveSchema store p).1,
      matchesQuery p r.version = true ∧ r.version ∈ store ∧
      r.unknownAdded =
        (getSchemaAttributesDiff r.version.schema
          (liveSchema r.version.contentType)).1 ∧
      r.unknownRemoved =
        (getSchemaAttributesDiff r.version.schema
          (liveSchema r.version.contentType)).2) ∧
    List.Pairwise (fun a b => newerFirst a.version b.version)
      (findVersionsPage liveSchema store p).1 ∧
    (findVersionsPage liveSchema store p).2 =
      ⟨p.page, p.pageSize, (store.filter (matchesQuery p)).length⟩ := by
  refine ⟨?_, ?_, rfl⟩
  · intro r hr
    obtain ⟨v, hv, rfl⟩ := List.mem_map.mp hr
    have hvs : v ∈ sortByCreatedAtDesc (store.filter (matchesQuery p)) :=
      List.mem_of_mem_drop (List.mem_of_mem_take hv)
    have hvf : v ∈ store.filter (matchesQuery p) :=
      mem_sortByCreatedAtDesc.mp hvs
    have hvfilter := List.mem_filter.mp hvf
    exact ⟨hvfilter.2, hvfilter.1, rfl, rfl⟩
  · show List.Pairwise (fun a b => newerFirst a.version b.version)
      (List.map (decorateWithUnknownAttributes liveSchema)
        (((sortByCreatedAtDesc (store.filter (matchesQuery p))).drop
          ((p.page - 1) * p.pageSize)).take p.pageSize))
    rw [List.pairwise_map]
    have hsorted := sorted_sortByCreatedAtDesc (store.filter (matchesQuery p))
    have hsub : List.Sublist
        (((sortByCreatedAtDesc (store.filter (matchesQuery p))).drop
          ((p.page - 1) * p.pageSize)).take p.pageSize)
        (sortByCreatedAtDesc (store.filter (matchesQuery p))) :=
      List.Sublist.trans (List.take_sublist _ _) (List.drop_sublist _ _)
    exact List.Pairwise.sublist hsub hsorted

/-- Witness for C5: the page-listing theorem applied to the unit test's
store, query and live schema, at the returned item. -/
theorem findVersionsPage_spec_witness :
    matchesQuery testFindParams testDecorated.version = true ∧
    testDecorated.version ∈ [testStoredVersion] ∧
    testDecorated.unknownAdded =
      (getSchemaAttributesDiff testDecorated.version.schema
        (testLiveSchema testDecorated.version.contentType)).1 ∧
    testDecorated.unknownRemoved =
      (getSchemaAttributesDiff testDecorated.version.schema
        (testLiveSchema testDecorated.version.contentType)).2 :=
  (findVersionsPage_spec testLiveSchema [testStoredVersion] testFindParams).1
    testDecorated (by decide)

/-- C9 (counterexample) — After create, update, publish there are indeed
4 versions, but the newest two versions are `draft` then `published` (the
implicitly created draft is the newest; the published version is second),
not `published` then `draft` as the claim states: the e2e test asserts the
newest version card shows `Draft` and the second one `Published`. -/
theorem publish_scenario_newest_two_counterexample :
    storeAfterPublish.length = 4 ∧
    publishListingStatuses.take 2 =
      [some DPStatus.draft, some DPStatus.published] ∧
    publishListingStatuses.take 2 ≠
      [some DPStatus.published, some DPStatus.draft] := by
  decide

/-- C9 (amended) — In the scenario create (1 version, status draft),
then update (2 versions), a subsequent publish yields 4 versions total —
the publish action records the published version plus the draft it
implicitly creates — with the newest two versions reflecting status draft
then published (the implicit draft is the newest, the published version
second); a subsequent unpublish records one more version with status
draft. -/
theorem publish_scenario_amended :
    storeAfterCreate.map (fun v => v.status) = [some DPStatus.draft] ∧
    storeAfterUpdate.length = 2 ∧
    storeAfterPublish.length = 4 ∧
    publishListingStatuses =
      [some DPStatus.draft, some DPStatus.published, some DPStatus.draft,
        some DPStatus.draft] ∧
    storeAfterUnpublish.length = 5 ∧
    (storeAfterUnpublish.map (fun v => v.status)).getLast? =
      some (some DPStatus.draft) := by
  decide

end History
